import Mathlib

set_option maxRecDepth 4000

/-!
Verification of the symbol-resolution graph builder (`src/main.rs`).

The development shallowly embeds the core of the program: the name
sanitizer `Graph::mangle_as_valid_dot_name`, the string interner, the
two ingestion routines `Graph::insert_exported` / `Graph::insert_imported`,
the per-file driver `Graph::parse_binary`, the `Graph::merge` pass and the
`Display` serializer.  Names are modelled as `List Char` (Rust `&str`
slices restricted to the character level), raw symbol records as byte
lists (`List Nat`), and the Rust `HashMap`s as association lists with
insertion-order iteration.  A Rust panic (`unwrap` on invalid UTF-8) is
modelled as `none`.
-/

namespace SymbolsGraph

/-- UTF-8 continuation byte test (`0x80 ..= 0xBF`). -/
def isCont (b : Nat) : Bool := 0x80 ≤ b && b ≤ 0xBF

/-- Byte-level UTF-8 validation and decoding, modelling Rust
`str::from_utf8`: `none` exactly when the byte list is not valid UTF-8
(overlong forms, surrogates and out-of-range scalars rejected). -/
def utf8Decode : List Nat → Option (List Char)
  | [] => some []
  | b :: rest =>
    if b ≤ 0x7F then
      (utf8Decode rest).map (Char.ofNat b :: ·)
    else if b < 0xC2 then none
    else if b ≤ 0xDF then
      match rest with
      | b2 :: rest2 =>
        if isCont b2 then
          (utf8Decode rest2).map (Char.ofNat ((b - 0xC0) * 64 + (b2 - 0x80)) :: ·)
        else none
      | [] => none
    else if b ≤ 0xEF then
      match rest with
      | b2 :: b3 :: rest3 =>
        if (if b = 0xE0 then 0xA0 ≤ b2 && b2 ≤ 0xBF
            else if b = 0xED then 0x80 ≤ b2 && b2 ≤ 0x9F
            else isCont b2) && isCont b3 then
          (utf8Decode rest3).map
            (Char.ofNat ((b - 0xE0) * 4096 + (b2 - 0x80) * 64 + (b3 - 0x80)) :: ·)
        else none
      | _ => none
    else if b ≤ 0xF4 then
      match rest with
      | b2 :: b3 :: b4 :: rest4 =>
        if (if b = 0xF0 then 0x90 ≤ b2 && b2 ≤ 0xBF
            else if b = 0xF4 then 0x80 ≤ b2 && b2 ≤ 0x8F
            else isCont b2) && isCont b3 && isCont b4 then
          (utf8Decode rest4).map
            (Char.ofNat ((b - 0xF0) * 262144 + (b2 - 0x80) * 4096 +
              (b3 - 0x80) * 64 + (b4 - 0x80)) :: ·)
        else none
      | _ => none
    else none

/-- Index of the last `'/'` in a character list, modelling
`str::rfind('/')` (byte indices coincide with character indices on the
relevant inputs). -/
def rfindSlash : List Char → Option Nat
  | [] => none
  | c :: rest =>
    match rfindSlash rest with
    | some i => some (i + 1)
    | none => if c = '/' then some 0 else none

/-- `Graph::mangle_as_valid_dot_name` (src/main.rs lines 161-196),
translated from the source: blacklists `"_GLOBAL_OFFSET_TABLE_"` and
`""`, rejects `.LC`- and `_`-prefixed names, then slices between the
last `'/'` and a trailing `".o"` and rewrites `'-'` and `'.'` to `'_'`. -/
def mangle_as_valid_dot_name (v : List Char) : Option (List Char) :=
  if v = "_GLOBAL_OFFSET_TABLE_".data then none
  else if v = "".data then none
  else if (".LC".data).isPrefixOf v then none
  else if ("_".data).isPrefixOf v then none
  else
    let dot := if (".o".data).isSuffixOf v then v.length - 2 else v.length
    let slash :=
      match rfindSlash v with
      | some index => index + 1
      | none => 0
    some ((((v.drop slash).take (dot - slash)).map
        (fun c => if c = '-' then '_' else c)).map
        (fun c => if c = '.' then '_' else c))

/-- Modelled from the spec (section 4.1, Name Sanitizer): the rules as
the specification words them — reject `""` and `"_GLOBAL_OFFSET_TABLE_"`,
reject `.LC`-prefixed and reserved-underscore-prefixed names; for
accepted names first drop a trailing `".o"`, then keep only the
substring after the last path separator, then replace every `'-'` and
`'.'` by `'_'`.  Used only to compare against the source-translated
`mangle_as_valid_dot_name`. -/
def sanitizeSpec (v : List Char) : Option (List Char) :=
  if v = "".data ∨ v = "_GLOBAL_OFFSET_TABLE_".data then none
  else if (".LC".data).isPrefixOf v then none
  else if ("_".data).isPrefixOf v then none
  else
    let v1 := if (".o".data).isSuffixOf v then v.take (v.length - 2) else v
    let v2 := v1.drop
      (match rfindSlash v1 with
       | some index => index + 1
       | none => 0)
    some (v2.map (fun c => if c = '-' ∨ c = '.' then '_' else c))

theorem rfindSlash_eq_none {l : List Char} (h : '/' ∉ l) : rfindSlash l = none := by
  induction l with
  | nil => rfl
  | cons c rest ih =>
    have hc : c ≠ '/' := fun hc => h (hc ▸ List.mem_cons_self c rest)
    have hr : '/' ∉ rest := fun hm => h (List.mem_cons_of_mem c hm)
    simp [rfindSlash, ih hr, hc]

theorem rfindSlash_append {w t : List Char} (h : '/' ∉ t) :
    rfindSlash (w ++ t) = rfindSlash w := by
  induction w with
  | nil => simp [rfindSlash_eq_none h, rfindSlash]
  | cons c rest ih =>
    simp only [List.cons_append, rfindSlash, List.append_eq, ih]

theorem rfindSlash_lt {w : List Char} {i : Nat} (h : rfindSlash w = some i) :
    i < w.length := by
  induction w generalizing i with
  | nil => simp [rfindSlash] at h
  | cons c rest ih =>
    simp only [rfindSlash] at h
    cases hr : rfindSlash rest with
    | some j =>
      rw [hr] at h
      cases h
      exact Nat.succ_lt_succ (ih hr)
    | none =>
      rw [hr] at h
      have h' : (if c = '/' then some 0 else none) = some i := h
      by_cases hc : c = '/'
      · rw [if_pos hc] at h'
        cases h'
        exact Nat.succ_pos _
      · rw [if_neg hc] at h'
        cases h'

theorem slice_self (v : List Char) (n : Nat) :
    (v.drop n).take (v.length - n) = v.drop n := by
  have hl : (v.drop n).length = v.length - n := List.length_drop _ _
  rw [← hl]
  exact List.take_length _

theorem slice_append (w t : List Char) (n : Nat) (hn : n ≤ w.length) :
    ((w ++ t).drop n).take (w.length - n) = w.drop n := by
  rw [List.drop_append_eq_append_drop]
  have h0 : n - w.length = 0 := by omega
  rw [h0, List.drop_zero, List.take_append_eq_append_take]
  have hlen : (w.drop n).length = w.length - n := List.length_drop _ _
  rw [List.take_of_length_le (Nat.le_of_eq hlen), hlen, Nat.sub_self, List.take_zero,
    List.append_nil]

theorem map_dash_dot_eq (l : List Char) :
    (l.map (fun c => if c = '-' then '_' else c)).map
      (fun c => if c = '.' then '_' else c) =
    l.map (fun c => if c = '-' ∨ c = '.' then '_' else c) := by
  rw [List.map_map]
  refine List.map_congr_left ?_
  intro c _
  by_cases h1 : c = '-'
  · simp [h1]
  · by_cases h2 : c = '.'
    · simp [h1, h2]
    · simp [h1, h2]

theorem mangle_eq_sanitizeSpec (v : List Char) :
    mangle_as_valid_dot_name v = sanitizeSpec v := by
  unfold mangle_as_valid_dot_name sanitizeSpec
  by_cases hg : v = "_GLOBAL_OFFSET_TABLE_".data
  · simp [hg]
  by_cases he : v = "".data
  · simp [he, hg]
  simp only [hg, he, if_false, or_self, false_or]
  by_cases hlc : (".LC".data).isPrefixOf v
  · simp [hlc]
  by_cases hu : ("_".data).isPrefixOf v
  · simp [hlc, hu]
  simp only [hlc, hu, Bool.false_eq_true, if_false]
  by_cases hs : (".o".data).isSuffixOf v
  · simp only [hs, if_true]
    have hsuf : (".o".data) <:+ v := List.isSuffixOf_iff_suffix.mp hs
    obtain ⟨w, hw⟩ := hsuf
    subst hw
    have hlen : (w ++ ".o".data).length = w.length + 2 := by
      simp [List.length_append]
    have htake : (w ++ ".o".data).take ((w ++ ".o".data).length - 2) = w := by
      rw [hlen, Nat.add_sub_cancel]
      exact List.take_left w _
    have hslash : rfindSlash (w ++ ".o".data) = rfindSlash w := by
      apply rfindSlash_append
      decide
    rw [htake, hslash, hlen, Nat.add_sub_cancel, map_dash_dot_eq]
    have hb : (match rfindSlash w with
        | some index => index + 1
        | none => 0) ≤ w.length := by
      cases hr : rfindSlash w with
      | none => exact Nat.zero_le _
      | some i => exact rfindSlash_lt hr
    rw [slice_append w ".o".data _ hb]
  · simp only [hs, Bool.false_eq_true, if_false]
    rw [map_dash_dot_eq, slice_self]

/-- Lookup in an association-list model of a Rust `HashMap`
(`HashMap::get`). -/
def lookupEntry {κ α : Type} [DecidableEq κ] : List (κ × α) → κ → Option α
  | [], _ => none
  | (k', v) :: rest, k => if k' = k then some v else lookupEntry rest k

/-- `HashMap::insert`: replaces the value when the key is present,
otherwise adds the binding (iteration order modelled as insertion
order). -/
def insertEntry {κ α : Type} [DecidableEq κ] : List (κ × α) → κ → α → List (κ × α)
  | [], k, v => [(k, v)]
  | (k', v') :: rest, k, v =>
    if k' = k then (k, v) :: rest else (k', v') :: insertEntry rest k v

/-- `HashMap::remove_entry`: the removed value (when the key is
present) together with the remaining map. -/
def removeEntry {κ α : Type} [DecidableEq κ] : List (κ × α) → κ → Option α × List (κ × α)
  | [], _ => (none, [])
  | (k', v) :: rest, k =>
    if k' = k then (some v, rest)
    else ((removeEntry rest k).1, (k', v) :: (removeEntry rest k).2)

/-- Position of an already-interned string, if any
(`StringInterner` lookup). -/
def internIdx : List (List Char) → List Char → Option Nat
  | [], _ => none
  | t :: rest, s => if t = s then some 0 else (internIdx rest s).map (· + 1)

/-- `StringInterner::get_or_intern`: the id of the string (existing, or
freshly allocated at the end) together with the updated interner. -/
def getOrIntern (l : List (List Char)) (s : List Char) : Nat × List (List Char) :=
  match internIdx l s with
  | some i => (i, l)
  | none => (l.length, l ++ [s])

/-- `StringInterner::resolve`. -/
def resolveStr (l : List (List Char)) (i : Nat) : Option (List Char) := l.get? i

/-- `NodeProperties` (src/main.rs lines 250-253). -/
structure NodeProperties where
  symbols : List Nat
deriving DecidableEq, Repr

/-- `EdgeProperties` (src/main.rs lines 255-258). -/
structure EdgeProperties where
  symbols : List Nat
deriving DecidableEq, Repr

/-- `SubGraph` (src/main.rs lines 260-264). -/
structure SubGraph where
  name : Nat
  nodes : List (Nat × NodeProperties)
deriving DecidableEq, Repr

/-- `Graph` (src/main.rs lines 20-33): nodes and edges keyed by interned
ids, the interner, and the two transient resolution maps `undefined`
(symbol id → consumers awaiting a provider) and `defined` (symbol id →
providers). -/
structure Graph where
  name : List Char
  nodes : List (Nat × NodeProperties)
  edges : List ((Nat × Nat) × EdgeProperties)
  clusters : List SubGraph
  strings : List (List Char)
  undefined : List (Nat × List Nat)
  defined : List (Nat × List Nat)
deriving DecidableEq, Repr

/-- `Graph::new`. -/
def Graph.new (name : List Char) : Graph :=
  { name := name, nodes := [], edges := [], clusters := [], strings := [],
    undefined := [], defined := [] }

/-- The create-or-extend edge step shared by both ingestion routines
(src/main.rs lines 120-126 and 144-149): push the symbol onto an
existing edge's symbol list, or insert a fresh edge. -/
def addEdgeSymbol (g : Graph) (edge : Nat × Nat) (symbol_name : Nat) : Graph :=
  match lookupEntry g.edges edge with
  | some properties =>
    { g with edges := insertEntry g.edges edge ⟨properties.symbols ++ [symbol_name]⟩ }
  | none =>
    { g with edges := insertEntry g.edges edge ⟨[symbol_name]⟩ }

/-- Body of `Graph::insert_exported` after the UTF-8 unwrap
(src/main.rs lines 100-127).  Note the faithfully reproduced lookup on
lines 111-115: the `defined` map is probed with the key `filename`, the
per-branch pushed value is `filename`, and only the `else` branch keys
the insertion by `symbol_name`. -/
def insert_exported_str (g : Graph) (properties : NodeProperties) (filename : Nat)
    (symbol_name : List Char) : Graph × NodeProperties :=
  match mangle_as_valid_dot_name symbol_name with
  | none => (g, properties)
  | some name =>
    let symbol_name := (getOrIntern g.strings name).1
    let g := { g with strings := (getOrIntern g.strings name).2 }
    let properties := { properties with symbols := properties.symbols ++ [symbol_name] }
    let g :=
      match lookupEntry g.defined filename with
      | some libs => { g with defined := insertEntry g.defined filename (libs ++ [filename]) }
      | none => { g with defined := insertEntry g.defined symbol_name [filename] }
    match removeEntry g.undefined symbol_name with
    | (some libs, undefined') =>
      (libs.foldl (fun g lib => addEdgeSymbol g (lib, filename) symbol_name)
        { g with undefined := undefined' }, properties)
    | (none, _) => (g, properties)

/-- `Graph::insert_exported` (src/main.rs lines 97-128).  The leading
`str::from_utf8(...).unwrap()` is modelled by `utf8Decode`: a `none`
result is the Rust panic aborting the run. -/
def Graph.insert_exported (g : Graph) (properties : NodeProperties) (filename : Nat)
    (exported_symbol : List Nat) : Option (Graph × NodeProperties) :=
  match utf8Decode exported_symbol with
  | none => none
  | some symbol_name => some (insert_exported_str g properties filename symbol_name)

/-- Body of `Graph::insert_imported` after the UTF-8 unwrap
(src/main.rs lines 133-158); the `properties` parameter of the Rust
function is never used there, so it is omitted. -/
def insert_imported_str (g : Graph) (filename : Nat) (symbol_name : List Char) : Graph :=
  match mangle_as_valid_dot_name symbol_name with
  | none => g
  | some name =>
    let symbol_name := (getOrIntern g.strings name).1
    let g := { g with strings := (getOrIntern g.strings name).2 }
    match lookupEntry g.defined symbol_name with
    | some libs =>
      libs.foldl (fun g lib => addEdgeSymbol g (filename, lib) symbol_name) g
    | none =>
      match lookupEntry g.undefined symbol_name with
      | some libs => { g with undefined := insertEntry g.undefined symbol_name (libs ++ [filename]) }
      | none => { g with undefined := insertEntry g.undefined symbol_name [filename] }

/-- `Graph::insert_imported` (src/main.rs lines 130-159), with the
UTF-8 unwrap modelled as for `insert_exported`. -/
def Graph.insert_imported (g : Graph) (filename : Nat)
    (imported_symbol : List Nat) : Option Graph :=
  match utf8Decode imported_symbol with
  | none => none
  | some symbol_name => some (insert_imported_str g filename symbol_name)

/-- The `for sym in symbols` loop over exported symbols in
`Graph::parse_binary` (src/main.rs lines 81-85). -/
def foldExported (g : Graph) (properties : NodeProperties) (filename : Nat) :
    List (List Nat) → Option (Graph × NodeProperties)
  | [] => some (g, properties)
  | s :: rest =>
    match Graph.insert_exported g properties filename s with
    | none => none
    | some (g', properties') => foldExported g' properties' filename rest

/-- The `for sym in symbols` loop over imported symbols in
`Graph::parse_binary` (src/main.rs lines 87-92). -/
def foldImported (g : Graph) (filename : Nat) : List (List Nat) → Option Graph
  | [] => some g
  | s :: rest =>
    match Graph.insert_imported g filename s with
    | none => none
    | some g' => foldImported g' filename rest

/-- `Graph::parse_binary` (src/main.rs lines 50-95) from the point
where the object file has been decoded: the exported and imported
symbol records are taken as inputs (binary decoding is an external
collaborator).  A rejected file name returns the graph unchanged; the
node is registered at the end with the accumulated properties. -/
def Graph.parse_binary (g : Graph) (filename : List Char)
    (exports imports : List (List Nat)) : Option Graph :=
  match mangle_as_valid_dot_name filename with
  | none => some g
  | some fname =>
    let filename := (getOrIntern g.strings fname).1
    let g := { g with strings := (getOrIntern g.strings fname).2 }
    match foldExported g ⟨[]⟩ filename exports with
    | none => none
    | some (g, properties) =>
      match foldImported g filename imports with
      | none => none
      | some g => some { g with nodes := insertEntry g.nodes filename properties }

/-- The per-file loop of `main` (src/main.rs lines 328-334): each input
is a file name together with its decoded exported and imported symbol
records; a panic (`none`) aborts the whole run. -/
def parseAll (g : Graph) : List (List Char × List (List Nat) × List (List Nat)) → Option Graph
  | [] => some g
  | (f, ex, im) :: rest =>
    match Graph.parse_binary g f ex im with
    | none => none
    | some g' => parseAll g' rest

/-- `Graph::merge` (src/main.rs lines 199-203): clear every edge's
symbol list in place. -/
def Graph.merge (g : Graph) : Graph :=
  { g with edges := g.edges.map (fun e => (e.1, ⟨[]⟩)) }

/-- One rendered node declaration line `n<id> [label="<name>"]`
(src/main.rs line 230). -/
def nodeLine (idx : Nat) (label : List Char) : List Char :=
  "    n".data ++ (Nat.repr idx).data ++ " [label=\"".data ++ label ++ "\"]".data

/-- One rendered unlabelled edge line `n<src> -> n<dst>`
(src/main.rs line 236). -/
def edgePlainLine (n1 n2 : Nat) : List Char :=
  "    n".data ++ (Nat.repr n1).data ++ " -> n".data ++ (Nat.repr n2).data

/-- One rendered labelled edge line `n<src> -> n<dst> [label="<symbol>"]`
(src/main.rs line 240). -/
def edgeLabelLine (n1 n2 : Nat) (label : List Char) : List Char :=
  edgePlainLine n1 n2 ++ " [label=\"".data ++ label ++ "\"]".data

/-- The lines rendered for one edge (src/main.rs lines 234-244): one
plain line when the symbol list is empty, otherwise one labelled line
per symbol whose name resolves. -/
def edgeLines (strings : List (List Char)) (e : (Nat × Nat) × EdgeProperties) :
    List (List Char) :=
  if e.2.symbols.length = 0 then [edgePlainLine e.1.1 e.1.2]
  else e.2.symbols.filterMap (fun s => (resolveStr strings s).map (edgeLabelLine e.1.1 e.1.2))

/-- The lines rendered for one cluster (src/main.rs lines 210-226). -/
def clusterLines (strings : List (List Char)) (c : SubGraph) : List (List Char) :=
  (match resolveStr strings c.name with
   | some label => "    subgraph ".data ++ label ++ " \x7b".data
   | none => "    subgraph \x7b".data) ::
  (c.nodes.map (fun p =>
    match resolveStr strings p.1 with
    | some label =>
      "        n".data ++ (Nat.repr p.1).data ++ " [label=\"".data ++ label ++ "\"]".data
    | none => "        n".data ++ (Nat.repr p.1).data) ++
   ["    \x7d".data])

/-- `impl Display for Graph` (src/main.rs lines 206-248) as the list of
output lines: graph header, clusters, node declarations (skipping
unresolvable ids), edge lines, closing brace. -/
def Graph.fmt (g : Graph) : List (List Char) :=
  ("digraph ".data ++ g.name ++ " \x7b".data) ::
    ((g.clusters.map (clusterLines g.strings)).flatten ++
     g.nodes.filterMap (fun p => (resolveStr g.strings p.1).map (nodeLine p.1)) ++
     (g.edges.map (edgeLines g.strings)).flatten ++
     ["\x7d".data])

/-- The node map of a graph with every interned id resolved back to its
name: the id-assignment-independent content of `nodes`. -/
def nodesView (g : Graph) : List (Option (List Char) × List (Option (List Char))) :=
  g.nodes.map (fun p => (resolveStr g.strings p.1, p.2.symbols.map (resolveStr g.strings)))

/-- The edge map with ids resolved back to names. -/
def edgesView (g : Graph) :
    List ((Option (List Char) × Option (List Char)) × List (Option (List Char))) :=
  g.edges.map (fun p =>
    ((resolveStr g.strings p.1.1, resolveStr g.strings p.1.2),
      p.2.symbols.map (resolveStr g.strings)))

/-- The `undefined` (awaiting) map with ids resolved back to names. -/
def undefinedView (g : Graph) : List (Option (List Char) × List (Option (List Char))) :=
  g.undefined.map (fun p => (resolveStr g.strings p.1, p.2.map (resolveStr g.strings)))

/-- The `defined` (providers) map with ids resolved back to names. -/
def definedView (g : Graph) : List (Option (List Char) × List (Option (List Char))) :=
  g.defined.map (fun p => (resolveStr g.strings p.1, p.2.map (resolveStr g.strings)))

/-- C6: the sanitizer is the pure function implementing the specified
rules in order — it agrees everywhere with the rule-by-rule spec
rendition `sanitizeSpec`, its rejection set is exactly the empty
string, `"_GLOBAL_OFFSET_TABLE_"`, and the `.LC`- and
underscore-prefixed names, `"/usr/lib/libfoo.o"` sanitizes identically
to `"libfoo"`, and `"a-b.c"` sanitizes to `"a_b_c"`. -/
theorem sanitizer_matches_spec :
    (∀ v, mangle_as_valid_dot_name v = sanitizeSpec v) ∧
    (∀ v, mangle_as_valid_dot_name v = none ↔
      (v = "".data ∨ v = "_GLOBAL_OFFSET_TABLE_".data ∨
        (".LC".data).isPrefixOf v = true ∨ ("_".data).isPrefixOf v = true)) ∧
    mangle_as_valid_dot_name "/usr/lib/libfoo.o".data =
      mangle_as_valid_dot_name "libfoo".data ∧
    mangle_as_valid_dot_name "a-b.c".data = some "a_b_c".data := by
  refine ⟨mangle_eq_sanitizeSpec, ?_, by decide, by decide⟩
  intro v
  constructor
  · intro h
    unfold mangle_as_valid_dot_name at h
    split_ifs at h with h1 h2 h3 h4
    · exact Or.inr (Or.inl h1)
    · exact Or.inl h2
    · exact Or.inr (Or.inr (Or.inl h3))
    · exact Or.inr (Or.inr (Or.inr h4))
  · intro h
    unfold mangle_as_valid_dot_name
    split_ifs with h1 h2 h3 h4
    · rfl
    · rfl
    · rfl
    · rfl
    · rcases h with h | h | h | h
      · exact absurd h h2
      · exact absurd h h1
      · exact absurd h h3
      · exact absurd h h4

/-- C10: the sanitizer accepts `".o"` and `"dir/.o"` and produces the
empty canonical string for both, even though the empty string as an
input is rejected; fed as a file name, `".o"` is interned and yields a
node whose id resolves to the empty label. -/
theorem sanitizer_empty_output :
    mangle_as_valid_dot_name ".o".data = some "".data ∧
    mangle_as_valid_dot_name "dir/.o".data = some "".data ∧
    mangle_as_valid_dot_name "".data = none ∧
    (Graph.parse_binary (Graph.new []) ".o".data [] []).map
      (fun g => (g.nodes, resolveStr g.strings 0)) =
      some ([(0, ⟨[]⟩)], some "".data) := by
  exact ⟨by decide, by decide, by decide, by decide⟩

/-- C8: `merge` clears every edge's symbol collection and changes
nothing else — name, nodes (with their properties), clusters, interner
and both resolution maps are untouched, the set of edge keys is
preserved, and merging twice equals merging once. -/
theorem merge_clears_labels_only (g : Graph) :
    g.merge.name = g.name ∧ g.merge.nodes = g.nodes ∧
    g.merge.clusters = g.clusters ∧ g.merge.strings = g.strings ∧
    g.merge.undefined = g.undefined ∧ g.merge.defined = g.defined ∧
    g.merge.edges.map Prod.fst = g.edges.map Prod.fst ∧
    (∀ e ∈ g.merge.edges, e.2.symbols = []) ∧
    g.merge.merge = g.merge := by
  refine ⟨rfl, rfl, rfl, rfl, rfl, rfl, ?_, ?_, ?_⟩
  · simp [Graph.merge]
  · intro e he
    simp only [Graph.merge, List.mem_map] at he
    obtain ⟨p, _, hp⟩ := he
    rw [← hp]
  · simp only [Graph.merge, List.map_map]
    rfl

/-- C2 fails on the code (wrong-key probe at src/main.rs lines 111-115):
after file `b` (id 0) defines `"x"` (id 1) and file `c` (id 2) defines
`"x"`, the providers entry for `"x"` is `[2]` — the insertion for `c`
replaced the entry instead of appending, losing provider `b`. -/
theorem providers_entry_overwritten :
    (parseAll (Graph.new []) [("b".data, [[120]], []), ("c".data, [[120]], [])]).map
      (fun g => (g.defined, resolveStr g.strings 1, resolveStr g.strings 0,
        resolveStr g.strings 2)) =
      some ([(1, [2])], some "x".data, some "b".data, some "c".data) := by decide

/-- C3 fails on the code: a symbol record whose name is the invalid
UTF-8 byte `0xFF` makes `insert_exported` panic (`str::from_utf8(..)
.unwrap()`, src/main.rs line 98), aborting the run (`none`) instead of
skipping the record — the following valid record `[120]` is never
processed. -/
theorem invalid_utf8_aborts :
    Graph.parse_binary (Graph.new []) "a".data [[255], [120]] [] = none ∧
    utf8Decode [255] = none ∧
    (Graph.insert_exported (Graph.new []) ⟨[]⟩ 0 [255] = none) ∧
    (Graph.insert_imported (Graph.new []) 0 [255] = none) := by
  exact ⟨rfl, rfl, rfl, rfl⟩

/-- C7 fails on the code (same wrong-key probe): file `a` (id 0)
defines `"b"`; file `b` (id 1) then defines `"x"` (id 2) — the record
is accepted (node 1 carries symbol 2) but, because the `defined` map is
probed with the file id 1 (a present key), no providers entry for
`"x"` is created; file `c` (id 3) later requires `"x"` and is queued in
`undefined` even though a provider record for `"x"` was already
ingested. -/
theorem awaiting_entry_after_provider :
    (parseAll (Graph.new [])
        [("a".data, [[98]], []), ("b".data, [[120]], []), ("c".data, [], [[120]])]).map
      (fun g => (g.undefined, g.defined, lookupEntry g.nodes 1, resolveStr g.strings 2,
        resolveStr g.strings 3)) =
      some ([(2, [3])], [(1, [0, 1])], some ⟨[2]⟩, some "x".data, some "c".data) := by
  rfl

/-- C1 as stated is false at a concrete input: file `a` (id 0) requires
`"x"` (id 1) before providers `b` (id 2) and `c` (id 3) are processed,
yet the final edge set contains only `(a, b)` — no edge `(a, c)` is
ever created, because `undefined` was drained when `b` arrived. -/
theorem multi_provider_fanout_cex :
    (parseAll (Graph.new [])
        [("a".data, [], [[120]]), ("b".data, [[120]], []), ("c".data, [[120]], [])]).map
      (fun g => (g.edges, resolveStr g.strings 0, resolveStr g.strings 2,
        resolveStr g.strings 3)) =
      some ([((0, 2), ⟨[1]⟩)], some "a".data, some "b".data, some "c".data) := by rfl

/-- C5 as stated is false at a concrete input: a file `f` that both
defines and requires `"x"` produces the self-loop edge `(0, 0)`
labelled with `"x"` (exports are ingested before imports, so the import
resolves against the file's own providers entry). -/
theorem self_loop_cex :
    (Graph.parse_binary (Graph.new []) "f".data [[120]] [[120]]).map
      (fun g => (g.edges, resolveStr g.strings 0, resolveStr g.strings 1)) =
      some ([((0, 0), ⟨[1]⟩)], some "f".data, some "x".data) := by rfl

/-- C5 amended: a file that both defines and requires the same symbol
name (accepted by the sanitizer, distinct from the file's own
sanitized name) DOES create a self-loop edge when ingested into the
empty graph — exports are processed before imports, so the import
resolves against the file's own providers entry.  File id 0, symbol
id 1 by interning order. -/
theorem self_loop_created
    (nF sx : List Char) (bx : List Nat) (f x : List Char)
    (hF : mangle_as_valid_dot_name nF = some f)
    (hdec : utf8Decode bx = some sx)
    (hx : mangle_as_valid_dot_name sx = some x)
    (hfx : f ≠ x) :
    ∃ g, Graph.parse_binary (Graph.new []) nF [bx] [bx] = some g ∧
      g.edges = [((0, 0), ⟨[1]⟩)] ∧
      resolveStr g.strings 0 = some f ∧ resolveStr g.strings 1 = some x := by
  refine ⟨⟨[], [(0, ⟨[1]⟩)], [((0, 0), ⟨[1]⟩)], [], [f, x], [], [(1, [0])]⟩, ?_, rfl, rfl, rfl⟩
  simp [Graph.parse_binary, foldExported, foldImported, Graph.insert_exported,
    insert_exported_str, Graph.insert_imported, insert_imported_str, getOrIntern,
    internIdx, lookupEntry, insertEntry, removeEntry, addEdgeSymbol, Graph.new,
    hF, hdec, hx, hfx]

/-- Witness for the amended C5 at file `"f"` requiring and defining
symbol `"x"` (byte `[120]`). -/
theorem self_loop_created_wit :
    ∃ g, Graph.parse_binary (Graph.new []) "f".data [[120]] [[120]] = some g ∧
      g.edges = [((0, 0), ⟨[1]⟩)] ∧
      resolveStr g.strings 0 = some "f".data ∧ resolveStr g.strings 1 = some "x".data :=
  self_loop_created "f".data "x".data [120] "f".data "x".data (by decide) (by decide)
    (by decide) (by decide)

/-- C1 amended: if A requires `"x"` before providers B and C are
processed, only the first provider to arrive (B) gains an edge — the
awaiting entry for `"x"` is drained at that moment, so ingesting C
creates no edge `(A, C)`.  Ids by interning order: A=0, x=1, B=2, C=3. -/
theorem multi_provider_single_edge
    (nA nB nC sx : List Char) (bx : List Nat) (a b c x : List Char)
    (hA : mangle_as_valid_dot_name nA = some a)
    (hB : mangle_as_valid_dot_name nB = some b)
    (hC : mangle_as_valid_dot_name nC = some c)
    (hdec : utf8Decode bx = some sx)
    (hx : mangle_as_valid_dot_name sx = some x)
    (hax : a ≠ x) (hab : a ≠ b) (hac : a ≠ c)
    (hxb : x ≠ b) (hxc : x ≠ c) (hbc : b ≠ c) :
    ∃ g, parseAll (Graph.new []) [(nA, [], [bx]), (nB, [bx], []), (nC, [bx], [])] = some g ∧
      g.edges = [((0, 2), ⟨[1]⟩)] ∧
      resolveStr g.strings 0 = some a ∧ resolveStr g.strings 1 = some x ∧
      resolveStr g.strings 2 = some b ∧ resolveStr g.strings 3 = some c := by
  refine ⟨⟨[], [(0, ⟨[]⟩), (2, ⟨[1]⟩), (3, ⟨[1]⟩)], [((0, 2), ⟨[1]⟩)], [],
    [a, x, b, c], [], [(1, [3])]⟩, ?_, rfl, rfl, rfl, rfl, rfl⟩
  simp [parseAll, Graph.parse_binary, foldExported, foldImported, Graph.insert_exported,
    insert_exported_str, Graph.insert_imported, insert_imported_str, getOrIntern,
    internIdx, lookupEntry, insertEntry, removeEntry, addEdgeSymbol, Graph.new,
    hA, hB, hC, hdec, hx, hax, hab, hac, hxb, hxc, hbc]

/-- Witness for the amended C1 at files `"a"`, `"b"`, `"c"` and symbol
`"x"` (byte `[120]`). -/
theorem multi_provider_single_edge_wit :
    ∃ g, parseAll (Graph.new [])
        [("a".data, [], [[120]]), ("b".data, [[120]], []), ("c".data, [[120]], [])] = some g ∧
      g.edges = [((0, 2), ⟨[1]⟩)] ∧
      resolveStr g.strings 0 = some "a".data ∧ resolveStr g.strings 1 = some "x".data ∧
      resolveStr g.strings 2 = some "b".data ∧ resolveStr g.strings 3 = some "c".data :=
  multi_provider_single_edge "a".data "b".data "c".data "x".data [120]
    "a".data "b".data "c".data "x".data (by decide) (by decide) (by decide) (by decide)
    (by decide) (by decide) (by decide) (by decide) (by decide) (by decide) (by decide)

/-- C4: ingesting consumer A (requires `"x"`) and provider B (defines
`"x"`) in either order yields the same final graph state up to the
internal id assignment — the name-resolved node map (as a multiset),
edge map, and both resolution maps coincide, and the edge set is
exactly the edge `(A, B)` labelled `"x"`. -/
theorem order_independent_resolution
    (nA nB sx : List Char) (bx : List Nat) (a b x : List Char)
    (hA : mangle_as_valid_dot_name nA = some a)
    (hB : mangle_as_valid_dot_name nB = some b)
    (hdec : utf8Decode bx = some sx)
    (hx : mangle_as_valid_dot_name sx = some x)
    (hax : a ≠ x) (hab : a ≠ b) (hbx : b ≠ x) :
    ∃ g1 g2,
      parseAll (Graph.new []) [(nA, [], [bx]), (nB, [bx], [])] = some g1 ∧
      parseAll (Graph.new []) [(nB, [bx], []), (nA, [], [bx])] = some g2 ∧
      (nodesView g1).Perm (nodesView g2) ∧
      edgesView g1 = edgesView g2 ∧
      undefinedView g1 = undefinedView g2 ∧
      definedView g1 = definedView g2 ∧
      edgesView g1 = [((some a, some b), [some x])] := by
  refine ⟨⟨[], [(0, ⟨[]⟩), (2, ⟨[1]⟩)], [((0, 2), ⟨[1]⟩)], [], [a, x, b], [], [(1, [2])]⟩,
    ⟨[], [(0, ⟨[1]⟩), (2, ⟨[]⟩)], [((2, 0), ⟨[1]⟩)], [], [b, x, a], [], [(1, [0])]⟩,
    ?_, ?_, ?_, ?_, ?_, ?_, ?_⟩
  · simp [parseAll, Graph.parse_binary, foldExported, foldImported, Graph.insert_exported,
      insert_exported_str, Graph.insert_imported, insert_imported_str, getOrIntern,
      internIdx, lookupEntry, insertEntry, removeEntry, addEdgeSymbol, Graph.new,
      hA, hB, hdec, hx, hax, hab, Ne.symm hbx]
  · simp [parseAll, Graph.parse_binary, foldExported, foldImported, Graph.insert_exported,
      insert_exported_str, Graph.insert_imported, insert_imported_str, getOrIntern,
      internIdx, lookupEntry, insertEntry, removeEntry, addEdgeSymbol, Graph.new,
      hA, hB, hdec, hx, hbx, Ne.symm hab, Ne.symm hax]
  · simp only [nodesView, resolveStr, List.map_cons, List.map_nil]
    simp only [List.get?]
    exact List.Perm.swap _ _ _
  · simp [edgesView, resolveStr]
  · simp [undefinedView]
  · simp [definedView, resolveStr]
  · simp [edgesView, resolveStr]

/-- Witness for C4 at files `"a"`, `"b"` and symbol `"x"` (byte `[120]`). -/
theorem order_independent_resolution_wit :
    ∃ g1 g2,
      parseAll (Graph.new []) [("a".data, [], [[120]]), ("b".data, [[120]], [])] = some g1 ∧
      parseAll (Graph.new []) [("b".data, [[120]], []), ("a".data, [], [[120]])] = some g2 ∧
      (nodesView g1).Perm (nodesView g2) ∧
      edgesView g1 = edgesView g2 ∧
      undefinedView g1 = undefinedView g2 ∧
      definedView g1 = definedView g2 ∧
      edgesView g1 = [((some "a".data, some "b".data), [some "x".data])] :=
  order_independent_resolution "a".data "b".data "x".data [120] "a".data "b".data "x".data
    (by decide) (by decide) (by decide) (by decide) (by decide) (by decide) (by decide)

/-- C9: when A requires both `"x"` and `"y"` and B defines both, the
final graph has exactly one edge, keyed `(A, B)` (ids 3 and 0 by
interning order), carrying both symbol ids; the serializer renders that
single edge as two labelled directed-edge lines, one for `"x"` and one
for `"y"`, between the header, the two node declarations and the
closing brace. -/
theorem multi_symbol_single_edge
    (nA nB sx sy : List Char) (px py : List Nat) (a b x y : List Char)
    (hB : mangle_as_valid_dot_name nB = some b)
    (hA : mangle_as_valid_dot_name nA = some a)
    (hdx : utf8Decode px = some sx)
    (hx : mangle_as_valid_dot_name sx = some x)
    (hdy : utf8Decode py = some sy)
    (hy : mangle_as_valid_dot_name sy = some y)
    (hbx : b ≠ x) (hby : b ≠ y) (hxy : x ≠ y)
    (hba : b ≠ a) (hxa : x ≠ a) (hya : y ≠ a) :
    ∃ g, parseAll (Graph.new []) [(nB, [px, py], []), (nA, [], [px, py])] = some g ∧
      g.edges = [((3, 0), ⟨[1, 2]⟩)] ∧
      resolveStr g.strings 3 = some a ∧ resolveStr g.strings 0 = some b ∧
      resolveStr g.strings 1 = some x ∧ resolveStr g.strings 2 = some y ∧
      g.fmt = ["digraph ".data ++ " \x7b".data, nodeLine 0 b, nodeLine 3 a,
        edgeLabelLine 3 0 x, edgeLabelLine 3 0 y, "\x7d".data] := by
  refine ⟨⟨[], [(0, ⟨[1, 2]⟩), (3, ⟨[]⟩)], [((3, 0), ⟨[1, 2]⟩)], [],
    [b, x, y, a], [], [(1, [0]), (2, [0])]⟩, ?_, rfl, rfl, rfl, rfl, rfl, ?_⟩
  · simp [parseAll, Graph.parse_binary, foldExported, foldImported, Graph.insert_exported,
      insert_exported_str, Graph.insert_imported, insert_imported_str, getOrIntern,
      internIdx, lookupEntry, insertEntry, removeEntry, addEdgeSymbol, Graph.new,
      hA, hB, hdx, hx, hdy, hy, hbx, hby, hxy, hba, hxa, hya]
  · simp [Graph.fmt, edgeLines, clusterLines, resolveStr, List.filterMap, List.flatten]

/-- Witness for C9 at files `"b"`, `"a"` and symbols `"x"` (byte
`[120]`) and `"y"` (byte `[121]`); the rendered edge lines are also
evaluated to their concrete text. -/
theorem multi_symbol_single_edge_wit :
    (∃ g, parseAll (Graph.new [])
        [("b".data, [[120], [121]], []), ("a".data, [], [[120], [121]])] = some g ∧
      g.edges = [((3, 0), ⟨[1, 2]⟩)] ∧
      resolveStr g.strings 3 = some "a".data ∧ resolveStr g.strings 0 = some "b".data ∧
      resolveStr g.strings 1 = some "x".data ∧ resolveStr g.strings 2 = some "y".data ∧
      g.fmt = ["digraph ".data ++ " \x7b".data, nodeLine 0 "b".data, nodeLine 3 "a".data,
        edgeLabelLine 3 0 "x".data, edgeLabelLine 3 0 "y".data, "\x7d".data]) ∧
    edgeLabelLine 3 0 "x".data = "    n3 -> n0 [label=\"x\"]".data ∧
    edgeLabelLine 3 0 "y".data = "    n3 -> n0 [label=\"y\"]".data :=
  ⟨multi_symbol_single_edge "a".data "b".data "x".data "y".data [120] [121]
      "a".data "b".data "x".data "y".data (by decide) (by decide) (by decide) (by decide)
      (by decide) (by decide) (by decide) (by decide) (by decide) (by decide) (by decide)
      (by decide),
    by decide, by decide⟩

end SymbolsGraph
